/-
Verification of the EPT support core (io/private/EptSupport.hpp): octree key
addressing and bisection, dataset metadata parsing, the fixed point layout,
the shallow point table over a raw byte buffer, and the worker pool's
sequentially observable state transitions.

Numeric modelling: C++ `double` bounds are embedded as `Rat` (the bisection
midpoint formula and all concrete inputs used here are exact in binary
floating point, so the rational value coincides with the double value);
`uint64_t` arithmetic is embedded as `Nat` reduced modulo `2 ^ 64` at each
operation that can wrap.  Byte buffers are `List Nat`.
-/
import Mathlib

namespace Ept

/-- Error values observable from the C++ code: `ept_error` (a `pdal_error`
carrying a message) thrown by this unit, plus the standard-library exceptions
`std::invalid_argument` and `std::out_of_range` that `std::stoull` can throw. -/
inductive CppError where
  | eptError (msg : String)
  | invalidArgument (msg : String)
  | outOfRange (msg : String)
deriving DecidableEq

/-- Reduction modulo `2 ^ 64`, the wrap-around of C++ `uint64_t` arithmetic. -/
def w64 (n : Nat) : Nat := n % 2 ^ 64

/-- Embedding of PDAL's `BOX3D` value as six rational coordinates, in the
constructor order `(minx, miny, minz, maxx, maxy, maxz)`.  The default value
stands for the default-constructed (empty) box. -/
structure BOX3D where
  minx : Rat := 0
  miny : Rat := 0
  minz : Rat := 0
  maxx : Rat := 0
  maxy : Rat := 0
  maxz : Rat := 0
deriving DecidableEq

/-- Embedding of `pdal::Key`: a depth/X/Y/Z EPT node address together with the
bounds of the contained data (`EptSupport.hpp`, class `Key`). -/
structure Key where
  b : BOX3D := {}
  d : Nat := 0
  x : Nat := 0
  y : Nat := 0
  z : Nat := 0
deriving DecidableEq

/-- One iteration of the axis loop in `Key::bisect` (the `step` lambda): the
integer coordinate is doubled, the midpoint `min + (max - min) / 2` is taken,
and depending on the direction bit either the minimum moves to the midpoint
and the coordinate is incremented, or the maximum moves to the midpoint.  Each
loop iteration touches only the fields of its own axis, so the loop is the
independent composition of this function over the three axes. -/
def bisectAxis (positive : Bool) (mn mx : Rat) (c : Nat) : Rat × Rat × Nat :=
  let c2 := w64 (c * 2)
  let mid := mn + (mx - mn) / 2
  if positive then (mid, mx, w64 (c2 + 1)) else (mn, mid, c2)

/-- Embedding of `Key::bisect(direction)`: depth is incremented and each axis
`i ∈ {0,1,2}` is updated by `bisectAxis` with bit `i` of `direction`
(`direction & (1 << i)` in the source). -/
def Key.bisect (k : Key) (direction : Nat) : Key :=
  let px := bisectAxis (direction.testBit 0) k.b.minx k.b.maxx k.x
  let py := bisectAxis (direction.testBit 1) k.b.miny k.b.maxy k.y
  let pz := bisectAxis (direction.testBit 2) k.b.minz k.b.maxz k.z
  { d := w64 (k.d + 1),
    x := px.2.2, y := py.2.2, z := pz.2.2,
    b := { minx := px.1, maxx := px.2.1,
           miny := py.1, maxy := py.2.1,
           minz := pz.1, maxz := pz.2.1 } }

/-- Split a character list at every occurrence of `sep`, keeping empty tokens
(so `n` separators yield `n + 1` tokens). -/
def splitChar (sep : Char) : List Char → List (List Char)
  | [] => [[]]
  | c :: cs =>
    if c = sep then [] :: splitChar sep cs
    else
      match splitChar sep cs with
      | [] => [[c]]
      | t :: ts => (c :: t) :: ts

/-- Modelled from the spec: `Utils::split` (pdal/util/Utils.hpp, not under
src/) "splits on a fixed delimiter"; it keeps empty tokens between consecutive
delimiters and returns no token for the empty string. -/
def utilsSplit (s : List Char) (sep : Char) : List (List Char) :=
  if s = [] then [] else splitChar sep s

/-- The six characters the C locale's `isspace` accepts, as skipped by
`std::stoull` before the number. -/
def cIsSpace (c : Char) : Bool :=
  c = ' ' || c = '\t' || c = '\n' || c = '\x0b' || c = '\x0c' || c = '\r'

/-- Numeric value of a decimal digit character. -/
def digitVal (c : Char) : Nat := c.toNat - '0'.toNat

/-- Value of a decimal digit string, most significant digit first. -/
def digitsToNat (ds : List Char) : Nat :=
  ds.foldl (fun acc c => acc * 10 + digitVal c) 0

/-- Drop one optional leading plus sign. -/
def dropPlus (s : List Char) : List Char :=
  match s with
  | c :: r => if c = '+' then r else c :: r
  | [] => []

/-- Embedding of `std::stoull` (base 10) per the C++ standard: skip leading
whitespace and an optional plus sign, convert the longest leading run of
decimal digits; throw `std::invalid_argument` when that run is empty and
`std::out_of_range` when the value exceeds `unsigned long long`.  (A minus
sign never reaches this model: the key parser's tokens come from splitting on
the hyphen itself.) -/
def stoull (s : List Char) : Except CppError Nat :=
  let ds := (dropPlus (s.dropWhile cIsSpace)).takeWhile Char.isDigit
  if ds = [] then Except.error (CppError.invalidArgument "stoull")
  else if digitsToNat ds < 2 ^ 64 then Except.ok (digitsToNat ds)
  else Except.error (CppError.outOfRange "stoull")

/-- Embedding of the `Key(std::string)` constructor: split on the hyphen,
require exactly 4 tokens (else `ept_error "Invalid EPT KEY"`), then convert
each token with `std::stoull`.  The bounds field keeps its default value: the
string form carries no bounds. -/
def parseKey (s : List Char) : Except CppError Key :=
  match utilsSplit s '-' with
  | [t0, t1, t2, t3] =>
    match stoull t0 with
    | Except.error e => Except.error e
    | Except.ok dv =>
      match stoull t1 with
      | Except.error e => Except.error e
      | Except.ok xv =>
        match stoull t2 with
        | Except.error e => Except.error e
        | Except.ok yv =>
          match stoull t3 with
          | Except.error e => Except.error e
          | Except.ok zv => Except.ok { d := dv, x := xv, y := yv, z := zv }
  | _ => Except.error (CppError.eptError "Invalid EPT KEY")

/-- Decimal digits of `n`, most significant first, as produced by
`std::to_string` on an unsigned value. -/
def natChars (n : Nat) : List Char :=
  if _h : n < 10 then [Nat.digitChar n]
  else natChars (n / 10) ++ [Nat.digitChar (n % 10)]
decreasing_by exact Nat.div_lt_self (by omega) (by omega)

/-- Embedding of `Key::toString`: the four coordinates in decimal, joined by
hyphens. -/
def keyToString (k : Key) : List Char :=
  natChars k.d ++ '-' :: (natChars k.x ++ '-' :: (natChars k.y ++ '-' :: natChars k.z))

/-- Embedding of `pdal::Dimension::Type` restricted to the values `getType`
can return. -/
inductive DimType where
  | signed8
  | signed16
  | signed32
  | signed64
  | unsigned8
  | unsigned16
  | unsigned32
  | unsigned64
  | float
  | double
  | none
deriving DecidableEq

/-- One field descriptor of the EPT `schema` array, with the JSON members the
code reads: `name`, `type`, `size`, and an optional `scale`. -/
structure DimJson where
  name : String := ""
  type : String := ""
  size : Nat := 0
  scale : Option Rat := Option.none
deriving DecidableEq

/-- Embedding of `getType(dim)`: a field with a `scale` member is always
`Double`; otherwise the `(type, size)` pair selects among the signed/unsigned
integer types of sizes 1, 2, 4, 8 and the float types of sizes 4, 8; any
other combination yields `Dimension::Type::None` (no exception is thrown). -/
def getType (dim : DimJson) : DimType :=
  if dim.scale.isSome then DimType.double
  else if dim.type = "signed" then
    match dim.size with
    | 1 => DimType.signed8
    | 2 => DimType.signed16
    | 4 => DimType.signed32
    | 8 => DimType.signed64
    | _ => DimType.none
  else if dim.type = "unsigned" then
    match dim.size with
    | 1 => DimType.unsigned8
    | 2 => DimType.unsigned16
    | 4 => DimType.unsigned32
    | 8 => DimType.unsigned64
    | _ => DimType.none
  else if dim.type = "float" then
    match dim.size with
    | 4 => DimType.float
    | 8 => DimType.double
    | _ => DimType.none
  else DimType.none

/-- Embedding of `toBox3d(b)` on a JSON array of numbers: exactly 6 elements
build a `BOX3D(b[0], ..., b[5])`; any other length throws `ept_error`
("Invalid bounds specification"; the styled-JSON payload of the C++ message is
not modelled).  A non-array JSON value, which the code also rejects, is
outside this embedding's input type. -/
def toBox3d (b : List Rat) : Except CppError BOX3D :=
  match b with
  | [a0, a1, a2, a3, a4, a5] =>
      Except.ok { minx := a0, miny := a1, minz := a2, maxx := a3, maxy := a4, maxz := a5 }
  | _ => Except.error (CppError.eptError "Invalid bounds specification")

/-- The `srs` JSON object as the code reads it: `srs.wkt` via `asString` (the
empty string when absent), and `authority` / `horizontal` / `vertical` probed
with `isMember`. -/
structure SrsJson where
  wkt : String := ""
  authority : Option String := Option.none
  horizontal : Option String := Option.none
  vertical : Option String := Option.none
deriving DecidableEq

/-- Embedding of the srs resolution in the `EptInfo` constructor: start from
`srs.wkt`; if that is empty, use `authority:horizontal` when both members are
present, and then — independently of the authority test — append
`+vertical` whenever a `vertical` member is present. -/
def resolveSrs (srs : SrsJson) : String :=
  let s0 := srs.wkt
  if s0 = "" then
    let s1 :=
      match srs.authority, srs.horizontal with
      | some a, some h => a ++ ":" ++ h
      | _, _ => s0
    match srs.vertical with
    | some v => s1 ++ "+" ++ v
    | _ => s1
  else s0

/-- Embedding of `EptInfo::DataType`. -/
inductive DataType where
  | laszip
  | binary
deriving DecidableEq

/-- The dataset-descriptor JSON members that the `EptInfo` constructor reads.
`bounds` is a JSON array of numbers; `points` and `span` are read with
`asUInt64` (0 when absent); `dataType` is read as a string. -/
structure EptJson where
  bounds : List Rat := []
  points : Nat := 0
  span : Nat := 0
  srs : SrsJson := {}
  dataType : String := ""
  schema : List DimJson := []
deriving DecidableEq

/-- Embedding of the parsed `EptInfo` object. -/
structure EptInfo where
  bounds : BOX3D
  points : Nat
  span : Nat
  srs : String
  dataType : DataType
  schema : List DimJson
deriving DecidableEq

/-- Embedding of the `EptInfo(Json::Value)` constructor: `toBox3d` on
`bounds` (which throws on a bad array), srs resolution, then the `dataType`
tag check which throws `ept_error` unless the tag is `"laszip"` or
`"binary"`.  The `schema` array is stored untouched: no field descriptor is
inspected during construction. -/
def mkEptInfo (j : EptJson) : Except CppError EptInfo := do
  let b ← toBox3d j.bounds
  let s := resolveSrs j.srs
  let dt ←
    if j.dataType = "laszip" then pure DataType.laszip
    else if j.dataType = "binary" then pure DataType.binary
    else Except.error (CppError.eptError ("Unrecognized EPT dataType: " ++ j.dataType))
  Except.ok { bounds := b, points := j.points, span := j.span, srs := s,
              dataType := dt, schema := j.schema }

/-- Embedding of `pdal::Dimension::Detail` with the members
`FixedPointLayout::update` touches: identity, byte size, byte offset. -/
structure Detail where
  id : Nat
  size : Nat
  offset : Nat := 0
deriving DecidableEq

/-- State of a `FixedPointLayout`: the running point size, the ordered list of
registered dimension identities (`m_used`), the per-identity details
(`m_detail`, as an association list), and the `m_finalized` flag of the base
`PointLayout`. -/
structure FixedPointLayout where
  pointSize : Nat := 0
  used : List Nat := []
  details : List (Nat × Detail) := []
  finalized : Bool := false
deriving DecidableEq

/-- Embedding of `FixedPointLayout::contains`: linear scan of an identity
list. -/
def idListContains : List Nat → Nat → Bool
  | [], _ => false
  | cur :: rest, id => if cur = id then true else idListContains rest id

/-- Modelled from the spec: the base `PointLayout`'s `m_propIds` (not under
src/), "a fixed set of recognized structural/property fields (used for
metadata-carrying pseudo-dimensions, e.g., an origin-id field)". -/
def propIds : List String := ["OriginId"]

/-- Store a detail under its identity, overwriting any previous entry
(`m_detail[Utils::toNative(id)] = dimDetail`). -/
def setDetail (l : List (Nat × Detail)) (id : Nat) (dd : Detail) : List (Nat × Detail) :=
  match l with
  | [] => [(id, dd)]
  | p :: rest => if p.1 = id then (id, dd) :: rest else p :: setDetail rest id dd

/-- Look a detail up by identity (`PointLayout::dimDetail`). -/
def dimDetail (L : FixedPointLayout) (id : Nat) : Option Detail :=
  match L.details.find? (fun p => p.1 == id) with
  | some p => some p.2
  | Option.none => Option.none

/-- Embedding of `FixedPointLayout::update(dimDetail, name)`: before
finalization a new identity is placed at offset `m_pointSize`, the point size
grows by its size, and the identity is recorded in `m_used`; a duplicate
identity changes nothing and reports `false`.  After finalization nothing is
ever stored and the result is whether `name` is a recognized property field. -/
def update (L : FixedPointLayout) (dd0 : Detail) (name : String) : Bool × FixedPointLayout :=
  if !L.finalized then
    if !idListContains L.used dd0.id then
      let dd := { dd0 with offset := L.pointSize }
      (true,
        { L with
          pointSize := L.pointSize + dd.size,
          used := L.used ++ [dd.id],
          details := setDetail L.details dd.id dd })
    else (false, L)
  else (propIds.contains name, L)

/-- Modelled from the spec: `PointLayout::finalize` (not under src/) fixes the
layout by setting the `m_finalized` flag. -/
def finalizeLayout (L : FixedPointLayout) : FixedPointLayout :=
  { L with finalized := true }

/-- Embedding of `ShallowPointTable`: a layout plus the externally owned raw
byte buffer (`m_data` of length `m_size`, as a list of byte values). -/
structure ShallowPointTable where
  layout : FixedPointLayout
  data : List Nat
deriving DecidableEq

/-- Embedding of `ShallowPointTable::numPoints`: the byte length divided by
the layout's point size — plain truncating integer division, with no check
and no exception. -/
def numPoints (t : ShallowPointTable) : Nat :=
  t.data.length / t.layout.pointSize

/-- Embedding of `ShallowPointTable::addPoint`: always throws `ept_error`. -/
def addPoint (_t : ShallowPointTable) : Except CppError Nat :=
  Except.error (CppError.eptError "Cannot add points to ShallowPointTable")

/-- Byte position of point `i` (`getPoint`): `i * pointSize` into the raw
buffer. -/
def getPointPos (t : ShallowPointTable) (i : Nat) : Nat :=
  i * t.layout.pointSize

/-- Read `len` bytes starting at `pos`. -/
def readBytes (data : List Nat) (pos len : Nat) : List Nat :=
  (data.drop pos).take len

/-- Overwrite the bytes starting at `pos` with `src` (`std::copy` onto the
buffer); for `pos + src.length ≤ data.length` this is the in-bounds pointwise
overwrite. -/
def writeBytes (data : List Nat) (pos : Nat) (src : List Nat) : List Nat :=
  data.take pos ++ src ++ data.drop (pos + src.length)

/-- Embedding of `ShallowPointTable::setFieldInternal`: copy `d->size()`
bytes of `value` to `getPoint(idx) + d->offset()`. -/
def setFieldInternal (t : ShallowPointTable) (id : Nat) (idx : Nat)
    (value : List Nat) : ShallowPointTable :=
  match dimDetail t.layout id with
  | some dd =>
      { t with data := writeBytes t.data (getPointPos t idx + dd.offset) (value.take dd.size) }
  | Option.none => t

/-- Embedding of `ShallowPointTable::getFieldInternal`: copy `d->size()`
bytes out of the buffer from `getPoint(idx) + d->offset()`. -/
def getFieldInternal (t : ShallowPointTable) (id : Nat) (idx : Nat) : List Nat :=
  match dimDetail t.layout id with
  | some dd => readBytes t.data (getPointPos t idx + dd.offset) dd.size
  | Option.none => []

/-- Sequentially observable state of a `Pool`: configuration
(`m_numThreads`, `m_queueSize`, `m_verbose`), the live worker-thread count
(`m_threads.size()`), the pending task queue, the collected error messages,
the outstanding-task counter, and the running flag.  Tasks are represented by
opaque identifiers. -/
structure Pool where
  verbose : Bool := true
  numThreads : Nat := 1
  queueSize : Nat := 1
  threads : Nat := 0
  tasks : List Nat := []
  errors : List String := []
  outstanding : Nat := 0
  running : Bool := false
deriving DecidableEq

/-- Embedding of `Pool::go`: a no-op when already running, else set the
running flag and spawn `m_numThreads` workers. -/
def Pool.go (p : Pool) : Pool :=
  if p.running then p else { p with running := true, threads := p.numThreads }

/-- Embedding of `Pool::join`: a no-op when already stopped, else clear the
running flag and join (remove) every worker thread.  Pending tasks, the
outstanding counter and the error list are left as they are. -/
def Pool.join (p : Pool) : Pool :=
  if !p.running then p else { p with running := false, threads := 0 }

/-- Embedding of the sequentially observable part of `Pool::add`: a stopped
pool throws `ept_error` before anything is enqueued, and the state is
untouched; a running pool enqueues the task.  (The capacity wait between the
check and the enqueue blocks on concurrent consumers and has no effect on
this sequential state.) -/
def Pool.add (p : Pool) (task : Nat) : Option CppError × Pool :=
  if !p.running then
    (some (CppError.eptError "Attempted to add a task to a stopped Pool"), p)
  else (Option.none, { p with tasks := p.tasks ++ [task] })

/-- Embedding of the `Pool` constructor: clamp both the worker count and the
queue capacity to at least 1, then `go()`. -/
def mkPool (numThreads queueSize : Nat) (verbose : Bool) : Pool :=
  Pool.go { verbose := verbose, numThreads := max numThreads 1,
            queueSize := max queueSize 1 }

/-- Embedding of `Pool::size` (and of the identical `Pool::numThreads`
accessor): the configured worker count. -/
def Pool.size (p : Pool) : Nat := p.numThreads

/-- C10: a constructed Pool clamps the requested worker count and queue
capacity to at least 1, so no pool ever has zero workers or a zero-capacity
queue, and `size()` (like `numThreads()`) reports the clamped worker count. -/
theorem mkPool_clamps (n q : Nat) (v : Bool) :
    (mkPool n q v).numThreads = max n 1 ∧
    (mkPool n q v).queueSize = max q 1 ∧
    1 ≤ (mkPool n q v).numThreads ∧
    1 ≤ (mkPool n q v).queueSize ∧
    (mkPool n q v).size = max n 1 := by
  have h1 : 1 ≤ max n 1 := Nat.le_max_right n 1
  have h2 : 1 ≤ max q 1 := Nat.le_max_right q 1
  simp [mkPool, Pool.go, Pool.size, h1, h2]

/-- C8: submitting a task to a stopped pool (after `join()`, before a
completed `go()`) throws the `ept_error` for a stopped pool and leaves the
pool's sequential state — pending queue, outstanding counter and error list —
exactly as it was before the call (the running-flag check precedes any
enqueue in `Pool::add`). -/
theorem add_after_join (p : Pool) (task : Nat) :
    ((p.join).add task).1 =
      some (CppError.eptError "Attempted to add a task to a stopped Pool") ∧
    ((p.join).add task).2 = p.join ∧
    ((p.join).add task).2.tasks = p.tasks ∧
    ((p.join).add task).2.outstanding = p.outstanding ∧
    ((p.join).add task).2.errors = p.errors := by
  cases hp : p.running <;> simp [Pool.join, Pool.add, hp]

/-- C2 counterexample: over a 21-byte buffer with a 20-byte record size,
`numPoints` returns 1.  The source computes a plain truncating integer
division and has no error path at all, so a byte length that is not an exact
multiple of the record size is silently truncated instead of failing with
`MalformedRecord`. -/
theorem numPoints_21_bytes_returns_one :
    numPoints { layout := { pointSize := 20 }, data := List.replicate 21 0 } = 1 := by
  rfl

/-- C2 (amended): for a positive record size, `numPoints` over a buffer of
`n` whole records plus `r` spare bytes (`r` below the record size) reports
exactly `n` — floor division, with the remainder discarded and no failure. -/
theorem numPoints_floor_div (lay : FixedPointLayout) (bytes : List Nat) (n r : Nat)
    (hr : r < lay.pointSize)
    (hlen : bytes.length = n * lay.pointSize + r) :
    numPoints { layout := lay, data := bytes } = n := by
  unfold numPoints
  simp only
  rw [hlen, Nat.mul_comm, Nat.mul_add_div (by omega), Nat.div_eq_of_lt hr]
  omega

/-- Witness for C2: a 20-byte buffer with a 20-byte record size holds exactly
one point. -/
theorem numPoints_floor_div_witness :
    numPoints { layout := { pointSize := 20 }, data := List.replicate 20 0 } = 1 :=
  numPoints_floor_div { pointSize := 20 } (List.replicate 20 0) 1 0 (by decide) (by decide)

/-- Auxiliary: an identity just appended to the back of the used list is
found by the linear scan. -/
theorem idListContains_append_self (l : List Nat) (a : Nat) :
    idListContains (l ++ [a]) a = true := by
  induction l with
  | nil => simp [idListContains]
  | cons c rest ih => simp [idListContains, ih]

/-- C7: `FixedPointLayout::update` rejects a second append of an
already-appended dimension identity before finalization — the call returns
`false` and the layout (field list, offsets, point size) is exactly
unchanged, with no exception — and after finalization any append whose name
is not a recognized property field is likewise rejected with the layout
unchanged. -/
theorem update_rejects (L : FixedPointLayout) :
    (∀ (dd dd2 : Detail) (nm nm2 : String),
        L.finalized = false → (update L dd nm).1 = true → dd2.id = dd.id →
        update (update L dd nm).2 dd2 nm2 = (false, (update L dd nm).2)) ∧
    (∀ (dd : Detail) (nm : String),
        propIds.contains nm = false →
        update (finalizeLayout L) dd nm = (false, finalizeLayout L)) := by
  constructor
  · intro dd dd2 nm nm2 hf h1 hid
    have hc : idListContains L.used dd.id = false := by
      by_contra hcc
      rw [Bool.not_eq_false] at hcc
      simp [update, hf, hcc] at h1
    simp [update, hf, hc, hid, idListContains_append_self]
  · intro dd nm h
    simp [update, finalizeLayout]
    simpa using h

/-- Witness for C7: on a fresh layout, appending identity 5 and then
appending identity 5 again is rejected with the layout unchanged, and after
finalization appending a non-property field named "Intensity" is rejected
with the layout unchanged. -/
theorem update_rejects_witness :
    update (update {} { id := 5, size := 8 } "X").2 { id := 5, size := 8 } "X" =
      (false, (update ({} : FixedPointLayout) { id := 5, size := 8 } "X").2) ∧
    update (finalizeLayout ({} : FixedPointLayout)) { id := 9, size := 2 } "Intensity" =
      (false, finalizeLayout ({} : FixedPointLayout)) :=
  ⟨(update_rejects {}).1 { id := 5, size := 8 } { id := 5, size := 8 } "X" "X"
      rfl (by decide) rfl,
   (update_rejects {}).2 { id := 9, size := 2 } "Intensity" (by decide)⟩

/-- C6 counterexample: with an empty well-known-text string, no
authority/horizontal pair, and a vertical code "5703", the resolved srs is
"+5703", not the empty string — the vertical suffix is appended outside the
authority/horizontal test in the `EptInfo` constructor. -/
theorem resolveSrs_vertical_only :
    resolveSrs { wkt := "", vertical := some "5703" } = "+5703" ∧
    resolveSrs { wkt := "", vertical := some "5703" } ≠ "" := by
  exact ⟨rfl, by decide⟩

/-- C6 (amended): srs resolution order — (1) a non-empty wkt wins; (2) with
wkt empty, an authority/horizontal pair yields `authority:horizontal`, plus
a `+vertical` suffix when a vertical code is present; (3) with wkt empty and
no complete pair the result is empty when there is no vertical code, but is
`+vertical` (with an empty prefix) when a vertical code is present. -/
theorem resolveSrs_resolution (s : SrsJson) :
    (s.wkt ≠ "" → resolveSrs s = s.wkt) ∧
    (∀ a h, s.wkt = "" → s.authority = some a → s.horizontal = some h →
        s.vertical = Option.none → resolveSrs s = a ++ ":" ++ h) ∧
    (∀ a h v, s.wkt = "" → s.authority = some a → s.horizontal = some h →
        s.vertical = some v → resolveSrs s = a ++ ":" ++ h ++ "+" ++ v) ∧
    (s.wkt = "" → (s.authority = Option.none ∨ s.horizontal = Option.none) →
        s.vertical = Option.none → resolveSrs s = "") ∧
    (∀ v, s.wkt = "" → (s.authority = Option.none ∨ s.horizontal = Option.none) →
        s.vertical = some v → resolveSrs s = "+" ++ v) := by
  refine ⟨?_, ?_, ?_, ?_, ?_⟩
  · intro hw
    simp [resolveSrs, hw]
  · intro a h hw ha hh hv
    simp [resolveSrs, hw, ha, hh, hv]
  · intro a h v hw ha hh hv
    simp [resolveSrs, hw, ha, hh, hv]
  · intro hw hor hv
    rcases hor with ha | hh
    · cases hh : s.horizontal <;> simp [resolveSrs, hw, ha, hh, hv]
    · cases ha : s.authority <;> simp [resolveSrs, hw, ha, hh, hv]
  · intro v hw hor hv
    rcases hor with ha | hh
    · cases hh : s.horizontal <;> simp [resolveSrs, hw, ha, hh, hv]
    · cases ha : s.authority <;> simp [resolveSrs, hw, ha, hh, hv]

/-- Witness for C6 (amended): a complete srs object resolves to
"EPSG:26915+5703", and the wkt string wins when non-empty. -/
theorem resolveSrs_resolution_witness :
    resolveSrs { wkt := "", authority := some "EPSG", horizontal := some "26915",
                 vertical := some "5703" } = "EPSG" ++ ":" ++ "26915" ++ "+" ++ "5703" ∧
    resolveSrs { wkt := "W", authority := some "EPSG", horizontal := some "26915",
                 vertical := some "5703" } = "W" :=
  ⟨(resolveSrs_resolution _).2.2.1 "EPSG" "26915" "5703" rfl rfl rfl rfl,
   (resolveSrs_resolution _).1 (by decide)⟩

/-- Auxiliary: a bounds array whose length is not 6 makes `toBox3d` throw. -/
theorem toBox3d_error_of_length_ne_six (b : List Rat) (h : b.length ≠ 6) :
    toBox3d b = Except.error (CppError.eptError "Invalid bounds specification") := by
  unfold toBox3d
  split
  · rename_i a0 a1 a2 a3 a4 a5
    exfalso
    apply h
    simp
  · rfl

/-- Auxiliary: a 6-element bounds array makes `toBox3d` succeed. -/
theorem toBox3d_ok_of_length_six (b : List Rat) (h : b.length = 6) :
    ∃ box, toBox3d b = Except.ok box := by
  rcases b with _ | ⟨a0, _ | ⟨a1, _ | ⟨a2, _ | ⟨a3, _ | ⟨a4, _ | ⟨a5, rest⟩⟩⟩⟩⟩⟩ <;>
    simp only [List.length_cons, List.length_nil] at h <;> try omega
  rcases rest with _ | ⟨a6, rest⟩
  · exact ⟨_, rfl⟩
  · simp at h

/-- C3 counterexample: a dataset descriptor with valid 6-element bounds and
`dataType` "binary" whose schema contains the unrecognized field descriptor
`(type "signed", size 3)` parses successfully — `EptInfo` construction never
inspects the field descriptors, so no `MalformedMetadata` error is raised for
a bad `(kind, size)` pair. -/
theorem mkEptInfo_accepts_bad_field :
    mkEptInfo { bounds := [0, 0, 0, 1, 1, 1], dataType := "binary",
                schema := [{ name := "X", type := "signed", size := 3 }] } =
      Except.ok { bounds := { minx := 0, miny := 0, minz := 0, maxx := 1, maxy := 1, maxz := 1 },
                  points := 0, span := 0, srs := "",
                  dataType := DataType.binary,
                  schema := [{ name := "X", type := "signed", size := 3 }] } := by
  rfl

/-- C3 (amended): metadata parsing throws `ept_error` when the bounds array
length is not 6 and when the dataType tag is unrecognized (e.g. "xyz"), but an
unrecognized field descriptor `(kind, size)` does not make parsing fail:
`getType` merely returns `Dimension::Type::None` for it (e.g. for
`(type "signed", size 3)`), and `EptInfo` construction succeeds with the
schema stored untouched. -/
theorem mkEptInfo_malformed_cases :
    (∀ j : EptJson, j.bounds.length ≠ 6 →
        mkEptInfo j = Except.error (CppError.eptError "Invalid bounds specification")) ∧
    (∀ j : EptJson, j.bounds.length = 6 → j.dataType = "xyz" →
        mkEptInfo j = Except.error (CppError.eptError ("Unrecognized EPT dataType: " ++ "xyz"))) ∧
    (∀ dim : DimJson, dim.scale = Option.none → dim.type = "signed" → dim.size = 3 →
        getType dim = DimType.none) ∧
    (∀ j : EptJson, j.bounds.length = 6 → j.dataType = "binary" →
        ∃ info, mkEptInfo j = Except.ok info ∧ info.schema = j.schema) := by
  refine ⟨?_, ?_, ?_, ?_⟩
  · intro j h
    unfold mkEptInfo
    rw [toBox3d_error_of_length_ne_six j.bounds h]
    rfl
  · intro j h hdt
    obtain ⟨box, hbox⟩ := toBox3d_ok_of_length_six j.bounds h
    unfold mkEptInfo
    rw [hbox, hdt]
    rfl
  · intro dim hs ht hz
    simp [getType, hs, ht, hz]
  · intro j h hdt
    obtain ⟨box, hbox⟩ := toBox3d_ok_of_length_six j.bounds h
    refine ⟨{ bounds := box, points := j.points, span := j.span,
              srs := resolveSrs j.srs, dataType := DataType.binary,
              schema := j.schema }, ?_, rfl⟩
    unfold mkEptInfo
    rw [hbox, hdt]
    rfl

/-- Witness for C3 (amended): a 5-element bounds array fails, a good-bounds
descriptor with dataType "xyz" fails, and the field descriptor
`(type "signed", size 3)` gets type `None`. -/
theorem mkEptInfo_malformed_cases_witness :
    mkEptInfo { bounds := [0, 0, 0, 1, 1], dataType := "binary" } =
      Except.error (CppError.eptError "Invalid bounds specification") ∧
    mkEptInfo { bounds := [0, 0, 0, 1, 1, 1], dataType := "xyz" } =
      Except.error (CppError.eptError ("Unrecognized EPT dataType: " ++ "xyz")) ∧
    getType { name := "X", type := "signed", size := 3 } = DimType.none :=
  ⟨mkEptInfo_malformed_cases.1 _ (by decide),
   mkEptInfo_malformed_cases.2.1 _ (by decide) rfl,
   mkEptInfo_malformed_cases.2.2.1 _ rfl rfl rfl⟩

/-- Auxiliary: reading back the bytes just written returns exactly the
written bytes, for an in-bounds write. -/
theorem readBytes_writeBytes (data src : List Nat) (pos : Nat)
    (h : pos + src.length ≤ data.length) :
    readBytes (writeBytes data pos src) pos src.length = src := by
  unfold readBytes writeBytes
  have hlen : (data.take pos).length = pos := by
    rw [List.length_take]
    omega
  rw [List.append_assoc, List.drop_left' hlen, List.take_left]

/-- Auxiliary: an in-bounds write preserves the buffer length. -/
theorem length_writeBytes (data src : List Nat) (pos : Nat)
    (h : pos + src.length ≤ data.length) :
    (writeBytes data pos src).length = data.length := by
  unfold writeBytes
  simp only [List.length_append, List.length_take, List.length_drop]
  omega

/-- Auxiliary: an in-bounds write leaves the bytes before the write position
unchanged. -/
theorem take_writeBytes (data src : List Nat) (pos : Nat)
    (h : pos + src.length ≤ data.length) :
    (writeBytes data pos src).take pos = data.take pos := by
  unfold writeBytes
  have hlen : (data.take pos).length = pos := by
    rw [List.length_take]
    omega
  rw [List.append_assoc, List.take_left' hlen]

/-- Auxiliary: an in-bounds write leaves the bytes after the written range
unchanged. -/
theorem drop_writeBytes (data src : List Nat) (pos : Nat)
    (h : pos + src.length ≤ data.length) :
    (writeBytes data pos src).drop (pos + src.length) = data.drop (pos + src.length) := by
  unfold writeBytes
  have hlen : (data.take pos ++ src).length = pos + src.length := by
    simp only [List.length_append, List.length_take]
    omega
  rw [List.drop_left' hlen]

/-- C9: on a `ShallowPointTable` whose buffer holds at least `idx + 1` whole
records, `setFieldInternal` for a registered dimension stores exactly
`size` bytes at offset `idx * pointSize + offset` (everything before and
after that range is untouched and the length is unchanged), a subsequent
`getFieldInternal` for the same dimension and point returns exactly the bytes
written, and `addPoint` always throws: the table mutates the externally owned
buffer in place but never grows it. -/
theorem set_get_field (t : ShallowPointTable) (id idx : Nat) (dd : Detail)
    (value : List Nat)
    (hdd : dimDetail t.layout id = some dd)
    (hv : value.length = dd.size)
    (hoff : dd.offset + dd.size ≤ t.layout.pointSize)
    (hbuf : (idx + 1) * t.layout.pointSize ≤ t.data.length) :
    getFieldInternal (setFieldInternal t id idx value) id idx = value ∧
    (setFieldInternal t id idx value).data =
      writeBytes t.data (getPointPos t idx + dd.offset) value ∧
    (setFieldInternal t id idx value).data.length = t.data.length ∧
    (setFieldInternal t id idx value).data.take (getPointPos t idx + dd.offset) =
      t.data.take (getPointPos t idx + dd.offset) ∧
    (setFieldInternal t id idx value).data.drop (getPointPos t idx + dd.offset + dd.size) =
      t.data.drop (getPointPos t idx + dd.offset + dd.size) ∧
    addPoint t = Except.error (CppError.eptError "Cannot add points to ShallowPointTable") := by
  have hmul : (idx + 1) * t.layout.pointSize =
      idx * t.layout.pointSize + t.layout.pointSize := by
    ring
  have hpos : getPointPos t idx + dd.offset + value.length ≤ t.data.length := by
    unfold getPointPos
    omega
  have hval : value.take dd.size = value := by
    rw [← hv]
    exact List.take_length value
  have hset : (setFieldInternal t id idx value).data =
      writeBytes t.data (getPointPos t idx + dd.offset) value := by
    simp only [setFieldInternal, hdd, hval]
  refine ⟨?_, hset, ?_, ?_, ?_, rfl⟩
  · have hlay : (setFieldInternal t id idx value).layout = t.layout := by
      simp only [setFieldInternal, hdd]
    simp only [getFieldInternal, hlay, hdd, hset]
    have hpp : getPointPos (setFieldInternal t id idx value) idx = getPointPos t idx := by
      simp only [getPointPos, hlay]
    rw [hpp, ← hv]
    exact readBytes_writeBytes t.data value _ hpos
  · rw [hset]
    exact length_writeBytes t.data value _ hpos
  · rw [hset]
    exact take_writeBytes t.data value _ hpos
  · rw [hset, ← hv]
    exact drop_writeBytes t.data value _ hpos

/-- Witness for C9: in a two-field layout (sizes 2 and 3, record size 5) over
a 10-byte buffer, writing bytes [7, 8, 9] to the second field of point 1 and
reading them back returns [7, 8, 9]. -/
theorem set_get_field_witness :
    getFieldInternal
      (setFieldInternal
        { layout := { pointSize := 5, used := [1, 2],
                      details := [(1, { id := 1, size := 2, offset := 0 }),
                                  (2, { id := 2, size := 3, offset := 2 })] },
          data := List.replicate 10 0 } 2 1 [7, 8, 9]) 2 1 = [7, 8, 9] :=
  (set_get_field
    { layout := { pointSize := 5, used := [1, 2],
                  details := [(1, { id := 1, size := 2, offset := 0 }),
                              (2, { id := 2, size := 3, offset := 2 })] },
      data := List.replicate 10 0 } 2 1 { id := 2, size := 3, offset := 2 }
    [7, 8, 9] (by decide) rfl (by decide) (by decide)).1

/-- Auxiliary: `bisectAxis` with the direction bit set, below the `uint64_t`
wrap: the minimum moves to the midpoint and the coordinate becomes `2c + 1`. -/
theorem bisectAxis_pos (mn mx : Rat) (c : Nat) (hc : 2 * c + 1 < 2 ^ 64) :
    bisectAxis true mn mx c = (mn + (mx - mn) / 2, mx, 2 * c + 1) := by
  unfold bisectAxis w64
  have h1 : c * 2 % 2 ^ 64 = c * 2 := Nat.mod_eq_of_lt (by omega)
  have h2 : (c * 2 + 1) % 2 ^ 64 = c * 2 + 1 := Nat.mod_eq_of_lt (by omega)
  simp only [h1, h2, if_true]
  have h3 : c * 2 + 1 = 2 * c + 1 := by ring
  rw [h3]

/-- Auxiliary: `bisectAxis` with the direction bit clear, below the
`uint64_t` wrap: the maximum moves to the midpoint and the coordinate becomes
`2c`. -/
theorem bisectAxis_neg (mn mx : Rat) (c : Nat) (hc : 2 * c < 2 ^ 64) :
    bisectAxis false mn mx c = (mn, mn + (mx - mn) / 2, 2 * c) := by
  unfold bisectAxis w64
  have h1 : c * 2 % 2 ^ 64 = c * 2 := Nat.mod_eq_of_lt (by omega)
  simp only [h1, Bool.false_eq_true, if_false]
  have h3 : c * 2 = 2 * c := by ring
  rw [h3]

/-- Auxiliary: general characterization of `Key::bisect` below the
`uint64_t` wrap — depth increments, and each axis is updated independently
from its own direction bit. -/
theorem bisect_char (k : Key) (direction : Nat)
    (hd : k.d + 1 < 2 ^ 64) (hx : 2 * k.x + 1 < 2 ^ 64)
    (hy : 2 * k.y + 1 < 2 ^ 64) (hz : 2 * k.z + 1 < 2 ^ 64) :
    k.bisect direction =
      { d := k.d + 1,
        x := if direction.testBit 0 then 2 * k.x + 1 else 2 * k.x,
        y := if direction.testBit 1 then 2 * k.y + 1 else 2 * k.y,
        z := if direction.testBit 2 then 2 * k.z + 1 else 2 * k.z,
        b := { minx := if direction.testBit 0 then
                 k.b.minx + (k.b.maxx - k.b.minx) / 2 else k.b.minx,
               maxx := if direction.testBit 0 then
                 k.b.maxx else k.b.minx + (k.b.maxx - k.b.minx) / 2,
               miny := if direction.testBit 1 then
                 k.b.miny + (k.b.maxy - k.b.miny) / 2 else k.b.miny,
               maxy := if direction.testBit 1 then
                 k.b.maxy else k.b.miny + (k.b.maxy - k.b.miny) / 2,
               minz := if direction.testBit 2 then
                 k.b.minz + (k.b.maxz - k.b.minz) / 2 else k.b.minz,
               maxz := if direction.testBit 2 then
                 k.b.maxz else k.b.minz + (k.b.maxz - k.b.minz) / 2 } } := by
  have hwd : w64 (k.d + 1) = k.d + 1 := Nat.mod_eq_of_lt hd
  have hxp := bisectAxis_pos k.b.minx k.b.maxx k.x hx
  have hxn := bisectAxis_neg k.b.minx k.b.maxx k.x (by omega)
  have hyp := bisectAxis_pos k.b.miny k.b.maxy k.y hy
  have hyn := bisectAxis_neg k.b.miny k.b.maxy k.y (by omega)
  have hzp := bisectAxis_pos k.b.minz k.b.maxz k.z hz
  have hzn := bisectAxis_neg k.b.minz k.b.maxz k.z (by omega)
  cases h0 : direction.testBit 0 <;> cases h1 : direction.testBit 1 <;>
    cases h2 : direction.testBit 2 <;>
    simp [Key.bisect, h0, h1, h2, hxp, hxn, hyp, hyn, hzp, hzn, hwd]

/-- Root key of a dataset whose cube is `[0,0,0,10,10,10]`, at depth 0 with
coordinates (0,0,0). -/
def rootKey10 : Key :=
  { b := { minx := 0, miny := 0, minz := 0, maxx := 10, maxy := 10, maxz := 10 } }

/-- C1: `bisect(direction)` yields a key of depth one greater where each axis
is updated independently from its own direction bit: the midpoint
`min + (max - min) / 2` replaces the minimum and the coordinate becomes
`2c + 1` when the bit is set, else the midpoint replaces the maximum and the
coordinate becomes `2c` (all below the `uint64_t` wrap).  In particular, from
the root key with bounds `[0,0,0,10,10,10]`, `bisect(7)` yields depth 1,
coordinates (1,1,1) and bounds `[5,5,5,10,10,10]`, and `bisect(0)` yields
depth 1, coordinates (0,0,0) and bounds `[0,0,0,5,5,5]`. -/
theorem bisect_spec (k : Key) (direction : Nat)
    (hd : k.d + 1 < 2 ^ 64) (hx : 2 * k.x + 1 < 2 ^ 64)
    (hy : 2 * k.y + 1 < 2 ^ 64) (hz : 2 * k.z + 1 < 2 ^ 64) :
    k.bisect direction =
      { d := k.d + 1,
        x := if direction.testBit 0 then 2 * k.x + 1 else 2 * k.x,
        y := if direction.testBit 1 then 2 * k.y + 1 else 2 * k.y,
        z := if direction.testBit 2 then 2 * k.z + 1 else 2 * k.z,
        b := { minx := if direction.testBit 0 then
                 k.b.minx + (k.b.maxx - k.b.minx) / 2 else k.b.minx,
               maxx := if direction.testBit 0 then
                 k.b.maxx else k.b.minx + (k.b.maxx - k.b.minx) / 2,
               miny := if direction.testBit 1 then
                 k.b.miny + (k.b.maxy - k.b.miny) / 2 else k.b.miny,
               maxy := if direction.testBit 1 then
                 k.b.maxy else k.b.miny + (k.b.maxy - k.b.miny) / 2,
               minz := if direction.testBit 2 then
                 k.b.minz + (k.b.maxz - k.b.minz) / 2 else k.b.minz,
               maxz := if direction.testBit 2 then
                 k.b.maxz else k.b.minz + (k.b.maxz - k.b.minz) / 2 } } ∧
    rootKey10.bisect 7 =
      { d := 1, x := 1, y := 1, z := 1,
        b := { minx := 5, miny := 5, minz := 5, maxx := 10, maxy := 10, maxz := 10 } } ∧
    rootKey10.bisect 0 =
      { d := 1, x := 0, y := 0, z := 0,
        b := { minx := 0, miny := 0, minz := 0, maxx := 5, maxy := 5, maxz := 5 } } := by
  refine ⟨bisect_char k direction hd hx hy hz, ?_, ?_⟩
  · rw [bisect_char rootKey10 7 (by decide) (by decide) (by decide) (by decide)]
    have h0 : Nat.testBit 7 0 = true := by decide
    have h1 : Nat.testBit 7 1 = true := by decide
    have h2 : Nat.testBit 7 2 = true := by decide
    simp only [rootKey10, h0, h1, h2, if_true]
    norm_num
  · rw [bisect_char rootKey10 0 (by decide) (by decide) (by decide) (by decide)]
    have h0 : Nat.testBit 0 0 = false := by decide
    have h1 : Nat.testBit 0 1 = false := by decide
    have h2 : Nat.testBit 0 2 = false := by decide
    simp only [rootKey10, h0, h1, h2, Bool.false_eq_true, if_false]
    norm_num

/-- Witness for C1: bisecting the `[0,0,0,10,10,10]` root in direction 7
gives depth 1, coordinates (1,1,1), bounds `[5,5,5,10,10,10]`. -/
theorem bisect_spec_witness :
    rootKey10.bisect 7 =
      { d := 1, x := 1, y := 1, z := 1,
        b := { minx := 5, miny := 5, minz := 5, maxx := 10, maxy := 10, maxz := 10 } } :=
  (bisect_spec rootKey10 7 (by decide) (by decide) (by decide) (by decide)).2.1

/-- Auxiliary: the digit characters are decimal digits. -/
theorem digitChar_isDigit {d : Nat} (h : d < 10) : (Nat.digitChar d).isDigit = true := by
  interval_cases d <;> decide

/-- Auxiliary: reading a digit character back yields the digit. -/
theorem digitVal_digitChar {d : Nat} (h : d < 10) : digitVal (Nat.digitChar d) = d := by
  interval_cases d <;> decide

/-- Auxiliary: the decimal form of a number is never empty. -/
theorem natChars_ne_nil (n : Nat) : natChars n ≠ [] := by
  rw [natChars]
  split <;> simp

/-- Auxiliary: every character of the decimal form is a digit. -/
theorem mem_natChars_isDigit (n : Nat) : ∀ c ∈ natChars n, c.isDigit = true := by
  induction n using Nat.strong_induction_on with
  | _ n ih =>
    rw [natChars]
    split
    · rename_i h
      intro c hc
      simp only [List.mem_singleton] at hc
      subst hc
      exact digitChar_isDigit h
    · rename_i h
      intro c hc
      rw [List.mem_append] at hc
      rcases hc with hc | hc
      · exact ih (n / 10) (Nat.div_lt_self (by omega) (by omega)) c hc
      · simp only [List.mem_singleton] at hc
        subst hc
        exact digitChar_isDigit (Nat.mod_lt _ (by omega))

/-- Auxiliary: appending one digit multiplies the value by ten and adds it. -/
theorem digitsToNat_concat (a : List Char) (c : Char) :
    digitsToNat (a ++ [c]) = digitsToNat a * 10 + digitVal c := by
  unfold digitsToNat
  rw [List.foldl_append]
  rfl

/-- Auxiliary: reading the decimal form back yields the number. -/
theorem digitsToNat_natChars (n : Nat) : digitsToNat (natChars n) = n := by
  induction n using Nat.strong_induction_on with
  | _ n ih =>
    rw [natChars]
    split
    · rename_i h
      show digitsToNat [Nat.digitChar n] = n
      unfold digitsToNat
      simp [digitVal_digitChar h]
    · rename_i h
      rw [digitsToNat_concat,
          ih (n / 10) (Nat.div_lt_self (by omega) (by omega)),
          digitVal_digitChar (Nat.mod_lt _ (by omega))]
      omega

/-- Auxiliary: a digit character is not one of the whitespace characters
`std::stoull` skips. -/
theorem cIsSpace_of_isDigit {c : Char} (h : c.isDigit = true) : cIsSpace c = false := by
  by_contra hb
  rw [Bool.not_eq_false] at hb
  unfold cIsSpace at hb
  simp only [Bool.or_eq_true, decide_eq_true_eq] at hb
  rcases hb with ((((h1 | h1) | h1) | h1) | h1) | h1 <;>
    (subst h1; exact absurd h (by decide))

/-- Auxiliary: a digit character is not a plus sign. -/
theorem ne_plus_of_isDigit {c : Char} (h : c.isDigit = true) : c ≠ '+' := by
  rintro rfl
  exact absurd h (by decide)

/-- Auxiliary: a digit character is not a hyphen. -/
theorem ne_hyphen_of_isDigit {c : Char} (h : c.isDigit = true) : c ≠ '-' := by
  rintro rfl
  exact absurd h (by decide)

/-- Auxiliary: `takeWhile` keeps an all-digit list whole. -/
theorem takeWhile_isDigit_all {l : List Char} (h : ∀ c ∈ l, c.isDigit = true) :
    l.takeWhile Char.isDigit = l := by
  induction l with
  | nil => rfl
  | cons c cs ih =>
    rw [List.takeWhile_cons, h c (by simp)]
    simp only [if_true]
    rw [ih (fun x hx => h x (by simp [hx]))]

/-- Auxiliary: `stoull` on a nonempty all-digit token below the `uint64_t`
range succeeds with the token's decimal value. -/
theorem stoull_all_digits (l : List Char) (hne : l ≠ [])
    (hdig : ∀ c ∈ l, c.isDigit = true) (hlt : digitsToNat l < 2 ^ 64) :
    stoull l = Except.ok (digitsToNat l) := by
  obtain ⟨c, cs, rfl⟩ := List.exists_cons_of_ne_nil hne
  have hc : c.isDigit = true := hdig c (by simp)
  unfold stoull
  have h1 : (c :: cs).dropWhile cIsSpace = c :: cs := by
    rw [List.dropWhile_cons, cIsSpace_of_isDigit hc]
    simp
  rw [h1]
  have h2 : dropPlus (c :: cs) = c :: cs := by
    show (if c = '+' then cs else c :: cs) = c :: cs
    rw [if_neg (ne_plus_of_isDigit hc)]
  rw [h2, takeWhile_isDigit_all hdig]
  rw [if_neg (List.cons_ne_nil c cs), if_pos hlt]

/-- Auxiliary: `stoull` of the decimal form of `n < 2^64` is `n`. -/
theorem stoull_natChars (n : Nat) (h : n < 2 ^ 64) :
    stoull (natChars n) = Except.ok n := by
  have hv := digitsToNat_natChars n
  rw [stoull_all_digits (natChars n) (natChars_ne_nil n) (mem_natChars_isDigit n)
      (by rw [hv]; exact h), hv]

/-- Auxiliary: splitting a list with no separator yields one token. -/
theorem splitChar_no_sep (sep : Char) (a : List Char) (h : ∀ c ∈ a, c ≠ sep) :
    splitChar sep a = [a] := by
  induction a with
  | nil => rfl
  | cons c cs ih =>
    rw [splitChar, if_neg (h c (by simp)), ih (fun x hx => h x (by simp [hx]))]

/-- Auxiliary: splitting peels off a separator-free head token. -/
theorem splitChar_append (sep : Char) (a b : List Char) (h : ∀ c ∈ a, c ≠ sep) :
    splitChar sep (a ++ sep :: b) = a :: splitChar sep b := by
  induction a with
  | nil =>
    show splitChar sep (sep :: b) = [] :: splitChar sep b
    rw [splitChar, if_pos rfl]
  | cons c cs ih =>
    show splitChar sep (c :: (cs ++ sep :: b)) = (c :: cs) :: splitChar sep b
    rw [splitChar, if_neg (h c (by simp)), ih (fun x hx => h x (by simp [hx]))]

/-- Auxiliary: no character of a decimal form is the hyphen delimiter. -/
theorem mem_natChars_ne_hyphen (n : Nat) : ∀ c ∈ natChars n, c ≠ '-' :=
  fun c hc => ne_hyphen_of_isDigit (mem_natChars_isDigit n c hc)

/-- Auxiliary: `utilsSplit` of a nonempty list is `splitChar`. -/
theorem utilsSplit_of_ne_nil (s : List Char) (sep : Char) (h : s ≠ []) :
    utilsSplit s sep = splitChar sep s := by
  unfold utilsSplit
  rw [if_neg h]

/-- Auxiliary: splitting the string form of a key on the hyphen returns the
four decimal coordinate tokens. -/
theorem split_keyToString (k : Key) :
    utilsSplit (keyToString k) '-' =
      [natChars k.d, natChars k.x, natChars k.y, natChars k.z] := by
  unfold keyToString
  rw [utilsSplit_of_ne_nil _ _ (by simp [natChars_ne_nil k.d])]
  rw [splitChar_append '-' _ _ (mem_natChars_ne_hyphen k.d)]
  rw [splitChar_append '-' _ _ (mem_natChars_ne_hyphen k.x)]
  rw [splitChar_append '-' _ _ (mem_natChars_ne_hyphen k.y)]
  rw [splitChar_no_sep '-' _ (mem_natChars_ne_hyphen k.z)]

/-- C4 counterexample: parsing "a-0-0-0" — four hyphen-separated tokens, one
of them non-numeric — throws `std::invalid_argument` out of `std::stoull`,
which is a different error than the `ept_error` ("Invalid EPT KEY",
InvalidAddress) the claim requires for non-numeric tokens. -/
theorem parseKey_nonnumeric_std_error :
    parseKey (String.toList "a-0-0-0") =
      Except.error (CppError.invalidArgument "stoull") ∧
    CppError.invalidArgument "stoull" ≠ CppError.eptError "Invalid EPT KEY" := by
  exact ⟨rfl, by decide⟩

/-- C4 (amended): key-string parsing splits on the hyphen and throws the
`ept_error` "Invalid EPT KEY" (InvalidAddress) whenever the token count is
not 4; a token with no leading digit instead makes `std::stoull` throw
`std::invalid_argument`, which is not the InvalidAddress error; and a
successful parse stores the four converted values with the bounds left at
their default — the string form carries no bounds. -/
theorem parseKey_spec :
    (∀ s : List Char, (utilsSplit s '-').length ≠ 4 →
        parseKey s = Except.error (CppError.eptError "Invalid EPT KEY")) ∧
    parseKey (String.toList "a-0-0-0") =
      Except.error (CppError.invalidArgument "stoull") ∧
    (∀ (s : List Char) (k : Key), parseKey s = Except.ok k → k.b = {}) := by
  refine ⟨?_, rfl, ?_⟩
  · intro s h
    unfold parseKey
    split
    · rename_i heq
      rw [heq] at h
      simp at h
    · rfl
  · intro s k hk
    unfold parseKey at hk
    split at hk
    · split at hk
      · exact Except.noConfusion hk
      · split at hk
        · exact Except.noConfusion hk
        · split at hk
          · exact Except.noConfusion hk
          · split at hk
            · exact Except.noConfusion hk
            · cases hk
              rfl
    · exact Except.noConfusion hk

/-- Witness for C4: "1-2-3" has three tokens and fails with the
InvalidAddress `ept_error`. -/
theorem parseKey_spec_witness :
    parseKey (String.toList "1-2-3") =
      Except.error (CppError.eptError "Invalid EPT KEY") :=
  parseKey_spec.1 (String.toList "1-2-3") (by decide)

/-- C5: `toString` round-trips through `parse` — for every key whose four
coordinates are `uint64_t` values, parsing the string form yields exactly the
4-tuple (depth, x, y, z), with the bounds left at their default since the
string form does not encode them. -/
theorem parseKey_keyToString (k : Key)
    (hd : k.d < 2 ^ 64) (hx : k.x < 2 ^ 64)
    (hy : k.y < 2 ^ 64) (hz : k.z < 2 ^ 64) :
    parseKey (keyToString k) = Except.ok { d := k.d, x := k.x, y := k.y, z := k.z } := by
  simp only [parseKey, split_keyToString k, stoull_natChars k.d hd,
    stoull_natChars k.x hx, stoull_natChars k.y hy, stoull_natChars k.z hz]

/-- Witness for C5: the key 10-0-3-44 round-trips exactly. -/
theorem parseKey_keyToString_witness :
    parseKey (keyToString { d := 10, x := 0, y := 3, z := 44 }) =
      Except.ok { d := 10, x := 0, y := 3, z := 44 } :=
  parseKey_keyToString { d := 10, x := 0, y := 3, z := 44 }
    (by decide) (by decide) (by decide) (by decide)

end Ept
